import Mathlib

/-!
Shallow embedding of the protocol-aggregation and routing core of
`blockchainpype` (DEX router, Uniswap V2/V3 pricing, money-market and
betting-market aggregators), together with theorems settling claims about
its natural-language specification.

Conventions of the embedding:
* Python `int` is `ℤ`; Python `Decimal` is `ℚ` (exact rational arithmetic);
  Python `//` (floor division) is `Int.fdiv`; Python `int(d)` applied to a
  `Decimal` truncates toward zero and is modelled by `pyInt`.
* Python `dict[str, Strategy]` registries (insertion-ordered) are modelled
  as association lists `List (String × α)`; `next(iter(d.values()))` is the
  head of the list and membership is `List.lookup`.
* `async` methods are pure functions of the data their awaited calls would
  return; a raised `ValueError` is `Except.error` with the same message.
-/

/-! ### Data model and operations translated from the source -/

/-- Python `int(q)` on a `Decimal`/rational value: truncation toward zero. -/
def pyInt (q : ℚ) : ℤ :=
  q.num.tdiv (q.den : ℤ)

/-- `SwapMode` (src/blockchainpype/dapps/router/models.py). -/
inductive SwapMode where
  | EXACT_INPUT
  | EXACT_OUTPUT
  | UNDEFINED
deriving DecidableEq, Repr

/-- The data carried by a `SwapHop` (src/blockchainpype/dapps/router/models.py):
one atomic exchange leg.  Assets are modelled by opaque numeric identifiers. -/
structure SwapHop where
  input_asset : ℕ
  input_amount : ℚ
  output_asset : ℕ
  output_amount : ℚ
  are_amounts_raw : Bool
deriving DecidableEq, Repr

/-- The data carried by a `SwapRoute` (src/blockchainpype/dapps/router/models.py),
extending a hop with the hop sequence, mode, slippage bound, taxes and
owning protocol identifier. -/
structure SwapRoute extends SwapHop where
  sequence : List SwapHop
  mode : SwapMode
  max_slippage : ℚ
  taxes : ℚ
  protocol : String
deriving DecidableEq, Repr

/-- `SwapHop.validate_swap_hop` (src/blockchainpype/dapps/router/models.py,
`@model_validator(mode="after")`): pydantic runs this after construction, so a
constructed hop is exactly one accepted by this function.  `Decimal % 1 != 0`
(a non-whole number) is `den ≠ 1` on `ℚ`. -/
def validate_swap_hop (h : SwapHop) : Except String SwapHop :=
  if h.input_asset = h.output_asset then
    .error "Input and output assets must be different."
  else if h.input_amount = 0 ∨ h.output_amount = 0 then
    .error "Amounts must be greater than 0."
  else if h.are_amounts_raw = true ∧ (h.input_amount.den ≠ 1 ∨ h.output_amount.den ≠ 1) then
    .error "Raw amounts must be integers."
  else
    .ok h

/-- `UniswapV2._get_amount_out` (src/blockchainpype/evm/dapp/uniswap/v2.py).
The reserves arrive as `Decimal` and are converted with `int(...)`; the
division is Python `//`. -/
def UniswapV2.get_amount_out (amount_in : ℤ) (reserve_in reserve_out : ℚ) : ℤ :=
  let reserve_in_int := pyInt reserve_in
  let reserve_out_int := pyInt reserve_out
  let amount_in_with_fee := amount_in * 997
  let numerator := amount_in_with_fee * reserve_out_int
  let denominator := reserve_in_int * 1000 + amount_in_with_fee
  numerator.fdiv denominator

/-- `UniswapV2._get_amount_in` (src/blockchainpype/evm/dapp/uniswap/v2.py). -/
def UniswapV2.get_amount_in (amount_out : ℤ) (reserve_in reserve_out : ℚ) : ℤ :=
  let reserve_in_int := pyInt reserve_in
  let reserve_out_int := pyInt reserve_out
  let numerator := reserve_in_int * amount_out * 1000
  let denominator := (reserve_out_int - amount_out) * 997
  numerator.fdiv denominator + 1

/-- `UniswapV2.quote_swap` (src/blockchainpype/evm/dapp/uniswap/v2.py): the
amount arithmetic and route construction, given the asset decimal counts and
the pair reserves the awaited chain calls return (in `Decimal` human units,
as `get_reserves` produces them). -/
def UniswapV2.quote_swap (input_asset output_asset : ℕ)
    (input_decimals output_decimals : ℕ) (reserve_a reserve_b : ℚ)
    (amount : ℚ) (mode : SwapMode) : SwapRoute :=
  if mode = SwapMode.EXACT_INPUT then
    let input_amount_raw := pyInt (amount * 10 ^ input_decimals)
    let output_amount_raw := UniswapV2.get_amount_out input_amount_raw reserve_a reserve_b
    let output_amount : ℚ := (output_amount_raw : ℚ) / 10 ^ output_decimals
    let swap_hop : SwapHop :=
      ⟨input_asset, amount, output_asset, output_amount, false⟩
    { toSwapHop := swap_hop, sequence := [swap_hop], mode := mode,
      max_slippage := 5 / 1000, taxes := 3 / 1000, protocol := "uniswap_v2" }
  else
    let output_amount_raw := pyInt (amount * 10 ^ output_decimals)
    let input_amount_raw := UniswapV2.get_amount_in output_amount_raw reserve_a reserve_b
    let new_amount : ℚ := (input_amount_raw : ℚ) / 10 ^ input_decimals
    let swap_hop : SwapHop :=
      ⟨input_asset, new_amount, output_asset, new_amount, false⟩
    { toSwapHop := swap_hop, sequence := [swap_hop], mode := mode,
      max_slippage := 5 / 1000, taxes := 3 / 1000, protocol := "uniswap_v2" }

/-- Python truthiness of a `str | None` value (`if protocol:`): `None` and
the empty string are falsy. -/
def strTruthy : Option String → Bool
  | none => false
  | some s => s != ""

/-- A DEX protocol strategy (`ProtocolStrategy`,
src/blockchainpype/dapps/router/dex.py): for the claims only its
`quote_swap` capability matters, modelled as the route each request maps to. -/
structure Strategy where
  quote : ℕ → ℕ → ℚ → SwapMode → SwapRoute

/-- `DecentralizedExchange.quote_swap`
(src/blockchainpype/dapps/router/dex.py): named-protocol delegation with the
`Unsupported protocol` check, else a best-of-N fold over all registered
strategies comparing `output_amount` with a strict `>`, failing with
`No valid route found` when the fold produced nothing. -/
def DecentralizedExchange.quote_swap (registry : List (String × Strategy))
    (input_asset output_asset : ℕ) (amount : ℚ) (mode : SwapMode)
    (protocol : Option String) : Except String SwapRoute :=
  if strTruthy protocol then
    let name := protocol.getD ""
    match registry.lookup name with
    | none => .error ("Unsupported protocol: " ++ name)
    | some s => .ok (s.quote input_asset output_asset amount mode)
  else
    let quotes := registry.map fun p => p.2.quote input_asset output_asset amount mode
    let best_quote := quotes.foldl
      (fun best quote =>
        match best with
        | none => some quote
        | some b =>
            if quote.output_amount > b.output_amount then some quote else some b)
      none
    match best_quote with
    | none => .error "No valid route found"
    | some r => .ok r

/-- `UniswapDEX.find_best_route` (src/blockchainpype/evm/dapp/uniswap/dex.py):
delegates to `quote_swap`, ignoring `max_hops`.  (The base-class
`DecentralizedExchange.find_best_route` raises `NotImplementedError`, but the
base class cannot be instantiated, since its constructor calls the
likewise-unimplemented `_initialize_protocols`.) -/
def UniswapDEX.find_best_route (registry : List (String × Strategy))
    (input_asset output_asset : ℕ) (amount : ℚ) (mode : SwapMode)
    (max_hops : ℕ) (protocol : Option String) : Except String SwapRoute :=
  DecentralizedExchange.quote_swap registry input_asset output_asset amount mode protocol

/-- `MoneyMarket._get_protocol_implementation`
(src/blockchainpype/dapps/money_market/money_market.py): named lookup with
`Unsupported protocol` error, else first-registered with
`No protocols configured` error on an empty registry. -/
def MoneyMarket.get_protocol_implementation {α : Type}
    (strategies : List (String × α)) (protocol : Option String) : Except String α :=
  if strTruthy protocol then
    let name := protocol.getD ""
    match strategies.lookup name with
    | none => .error ("Unsupported protocol: " ++ name)
    | some s => .ok s
  else
    match strategies with
    | [] => .error "No protocols configured"
    | (_, s) :: _ => .ok s

/-- `BettingMarket._get_protocol_implementation`
(src/blockchainpype/dapps/betting_market/betting_market.py): textually the
same resolution rule as the money market's. -/
def BettingMarket.get_protocol_implementation {α : Type}
    (strategies : List (String × α)) (protocol : Option String) : Except String α :=
  if strTruthy protocol then
    let name := protocol.getD ""
    match strategies.lookup name with
    | none => .error ("Unsupported protocol: " ++ name)
    | some s => .ok s
  else
    match strategies with
    | [] => .error "No protocols configured"
    | (_, s) :: _ => .ok s

/-- A betting-market protocol strategy (`ProtocolImplementation`,
src/blockchainpype/dapps/betting_market/betting_market.py): the price read
and the two transaction builders used by the aggregator's buy/sell paths.
`Tx` abstracts the built (unsigned) transaction value. -/
structure BettingStrategy (Tx : Type) where
  outcome_token_price : String → String → ℚ
  build_buy_transaction : String → String → ℚ → ℚ → String → Tx
  build_sell_transaction : String → String → ℚ → ℚ → String → Tx

/-- `BettingMarket.get_outcome_token_price`
(src/blockchainpype/dapps/betting_market/betting_market.py): resolve the
strategy, then read the price. -/
def BettingMarket.get_outcome_token_price {Tx : Type}
    (strategies : List (String × BettingStrategy Tx))
    (market_id outcome_token_id : String) (protocol : Option String) :
    Except String ℚ :=
  match BettingMarket.get_protocol_implementation strategies protocol with
  | .error e => .error e
  | .ok impl => .ok (impl.outcome_token_price market_id outcome_token_id)

/-- `BettingMarket.buy_outcome_tokens`
(src/blockchainpype/dapps/betting_market/betting_market.py): when `max_price`
is omitted it is defaulted to
`current_price * (1 + default_slippage_tolerance)`; then the resolved
strategy's buy-transaction builder is called. -/
def BettingMarket.buy_outcome_tokens {Tx : Type}
    (default_slippage_tolerance : ℚ)
    (strategies : List (String × BettingStrategy Tx))
    (market_id outcome_token_id : String) (amount : ℚ) (user_address : String)
    (max_price : Option ℚ) (protocol : Option String) : Except String Tx :=
  let resolved_max_price : Except String ℚ :=
    match max_price with
    | some mp => .ok mp
    | none =>
      match BettingMarket.get_outcome_token_price strategies market_id
          outcome_token_id protocol with
      | .error e => .error e
      | .ok current_price => .ok (current_price * (1 + default_slippage_tolerance))
  match resolved_max_price with
  | .error e => .error e
  | .ok mp =>
    match BettingMarket.get_protocol_implementation strategies protocol with
    | .error e => .error e
    | .ok impl =>
      .ok (impl.build_buy_transaction market_id outcome_token_id amount mp user_address)

/-- `BettingMarket.sell_outcome_tokens`
(src/blockchainpype/dapps/betting_market/betting_market.py): when `min_price`
is omitted it is defaulted to
`current_price * (1 - default_slippage_tolerance)`; then the resolved
strategy's sell-transaction builder is called. -/
def BettingMarket.sell_outcome_tokens {Tx : Type}
    (default_slippage_tolerance : ℚ)
    (strategies : List (String × BettingStrategy Tx))
    (market_id outcome_token_id : String) (shares : ℚ) (user_address : String)
    (min_price : Option ℚ) (protocol : Option String) : Except String Tx :=
  let resolved_min_price : Except String ℚ :=
    match min_price with
    | some mp => .ok mp
    | none =>
      match BettingMarket.get_outcome_token_price strategies market_id
          outcome_token_id protocol with
      | .error e => .error e
      | .ok current_price => .ok (current_price * (1 - default_slippage_tolerance))
  match resolved_min_price with
  | .error e => .error e
  | .ok mp =>
    match BettingMarket.get_protocol_implementation strategies protocol with
    | .error e => .error e
    | .ok impl =>
      .ok (impl.build_sell_transaction market_id outcome_token_id shares mp user_address)

/-- `self.fee_tiers` of `UniswapV3`
(src/blockchainpype/evm/dapp/uniswap/v3.py): 0.01%, 0.05%, 0.3%, 1%. -/
def UniswapV3.fee_tiers : List ℕ :=
  [100, 500, 3000, 10000]

/-- One iteration of the fee-tier loop in `UniswapV3.quote_swap`
(src/blockchainpype/evm/dapp/uniswap/v3.py).  `poolQuote tier` is the quote
amount the tier's pool produces for the current request (already converted
from raw units), or `none` when the tier has no pool or the attempt raised
(the loop's `continue` paths). -/
def UniswapV3.tier_step (mode : SwapMode) (poolQuote : ℕ → Option ℚ)
    (best : Option (ℚ × ℕ)) (fee_tier : ℕ) : Option (ℚ × ℕ) :=
  match poolQuote fee_tier with
  | none => best
  | some quote_amount =>
    match best with
    | none => some (quote_amount, fee_tier)
    | some (best_quote, best_fee_tier) =>
      if (mode = SwapMode.EXACT_INPUT ∧ quote_amount > best_quote)
          ∨ (mode = SwapMode.EXACT_OUTPUT ∧ quote_amount < best_quote) then
        some (quote_amount, fee_tier)
      else
        some (best_quote, best_fee_tier)

/-- The fee-tier search loop of `UniswapV3.quote_swap`: fold `tier_step`
over the fixed tier list, starting from `best_quote = best_fee_tier = None`. -/
def UniswapV3.bestPool (mode : SwapMode) (poolQuote : ℕ → Option ℚ) :
    Option (ℚ × ℕ) :=
  UniswapV3.fee_tiers.foldl (UniswapV3.tier_step mode poolQuote) none

/-- `UniswapV3.quote_swap` (src/blockchainpype/evm/dapp/uniswap/v3.py): run
the fee-tier search, fail when no pool produced a quote, otherwise build the
route for the winning tier. -/
def UniswapV3.quote_swap (poolQuote : ℕ → Option ℚ)
    (input_asset output_asset : ℕ) (amount : ℚ) (mode : SwapMode) :
    Except String SwapRoute :=
  match UniswapV3.bestPool mode poolQuote with
  | none =>
    .error ("No valid pool found for " ++ toString input_asset ++ "/"
      ++ toString output_asset)
  | some (best_quote, best_fee_tier) =>
    let input_amount := if mode = SwapMode.EXACT_INPUT then amount else best_quote
    let output_amount := if mode = SwapMode.EXACT_INPUT then best_quote else amount
    let swap_hop : SwapHop :=
      ⟨input_asset, input_amount, output_asset, output_amount, false⟩
    .ok { toSwapHop := swap_hop, sequence := [swap_hop], mode := mode,
          max_slippage := 5 / 1000,
          taxes := (best_fee_tier : ℚ) / 1000000,
          protocol := "uniswap_v3_" ++ toString best_fee_tier }

/-- The (quote, tier) pairs the V3 fee-tier loop actually considers, in loop
order: tiers without a pool are skipped. -/
def UniswapV3.hits (poolQuote : ℕ → Option ℚ) : List (ℚ × ℕ) :=
  UniswapV3.fee_tiers.filterMap fun t => (poolQuote t).map fun q => (q, t)

/-! ### Specification-side helper: first-best selection

`pickBest key acc l` abstracts the strict-inequality best-of folds of the
DEX aggregator and the V3 fee-tier loop: it keeps the first element whose
key is maximal, replacing the current best only on a strictly larger key. -/

def pickBest {α : Type} (key : α → ℚ) : Option α → List α → Option α
  | acc, [] => acc
  | none, q :: l => pickBest key (some q) l
  | some b, q :: l => pickBest key (some (if key b < key q then q else b)) l

/-! ### Concrete strategies used by witnesses -/

/-- A DEX strategy quoting a fixed output amount (witness data). -/
def constStrategy (out : ℚ) : Strategy where
  quote := fun i o a m =>
    { input_asset := i, input_amount := a, output_asset := o,
      output_amount := out, are_amounts_raw := false, sequence := [],
      mode := m, max_slippage := 0, taxes := 0, protocol := "p" }

/-- A betting-market strategy with a fixed price whose builders record their
arguments (witness data). -/
def recordingBettingStrategy (price : ℚ) :
    BettingStrategy (String × String × ℚ × ℚ × String) where
  outcome_token_price := fun _ _ => price
  build_buy_transaction := fun m t a p u => (m, t, a, p, u)
  build_sell_transaction := fun m t s p u => (m, t, s, p, u)

/-- The non-integral rational `3/2` (numerator 3, denominator 2), used to
evaluate the raw-amount check of `validate_swap_hop`. -/
def threeHalves : ℚ := ⟨3, 2, by decide, by decide⟩

/-- The pool environment used by the V3 witness: tier 500 quotes 51, tier
3000 quotes 50, the other tiers have no pool. -/
def v3WitnessPools : ℕ → Option ℚ :=
  fun t => if t = 500 then some 51 else if t = 3000 then some 50 else none

/-- The route the V3 witness request produces: tier 500 wins with output 51. -/
def v3WitnessRoute : SwapRoute where
  input_asset := 0
  input_amount := 5
  output_asset := 1
  output_amount := 51
  are_amounts_raw := false
  sequence := [⟨0, 5, 1, 51, false⟩]
  mode := SwapMode.EXACT_INPUT
  max_slippage := 5 / 1000
  taxes := 500 / 1000000
  protocol := "uniswap_v3_500"

/-! ### Arithmetic lemmas about Python floor division -/

/-- `Int.fdiv` commutes with negating both operands (both are floor division
of the same rational value). -/
theorem fdiv_neg_neg : ∀ (a b : ℤ), Int.fdiv (-a) (-b) = Int.fdiv a b
  | .ofNat 0, .ofNat 0 => rfl
  | .ofNat 0, .ofNat (_+1) => rfl
  | .ofNat 0, .negSucc _ => rfl
  | .ofNat (m+1), .ofNat 0 => by
      show Int.fdiv (Int.negSucc m) 0 = Int.fdiv (Int.ofNat (m+1)) 0
      simp
  | .ofNat (_+1), .ofNat (_+1) => rfl
  | .ofNat (_+1), .negSucc _ => rfl
  | .negSucc m, .ofNat 0 => by
      show Int.fdiv (Int.ofNat (m+1)) 0 = Int.fdiv (Int.negSucc m) 0
      simp
  | .negSucc _, .ofNat (_+1) => rfl
  | .negSucc _, .negSucc _ => rfl

theorem pyInt_intCast (z : ℤ) : pyInt (z : ℚ) = z := by
  simp [pyInt]

/-- For a positive divisor, `Int.fdiv` is the rational floor. -/
theorem fdiv_eq_floor_of_pos (a b : ℤ) (hb : 0 < b) :
    a.fdiv b = ⌊(a : ℚ) / (b : ℚ)⌋ := by
  rw [Int.fdiv_eq_ediv a (le_of_lt hb)]
  have hnat : b = (b.toNat : ℤ) := (Int.toNat_of_nonneg (le_of_lt hb)).symm
  rw [hnat]
  rw [show (((b.toNat : ℤ) : ℚ)) = ((b.toNat : ℕ) : ℚ) by push_cast; ring]
  exact (Rat.floor_intCast_div_natCast a b.toNat).symm

/-- Python `//`: for any nonzero divisor, `Int.fdiv` is the rational floor. -/
theorem fdiv_eq_floor (a b : ℤ) (hb : b ≠ 0) :
    a.fdiv b = ⌊(a : ℚ) / (b : ℚ)⌋ := by
  rcases lt_trichotomy b 0 with hneg | hzero | hpos
  · have h1 : a.fdiv b = (-a).fdiv (-b) := (fdiv_neg_neg a b).symm
    rw [h1, fdiv_eq_floor_of_pos (-a) (-b) (by omega)]
    congr 1
    push_cast
    rw [neg_div_neg_eq]
  · exact absurd hzero hb
  · exact fdiv_eq_floor_of_pos a b hpos

/-! ### Claim C1 -/

/-- C1: the constant-product pricing primitives compute exactly the floor
formulas of the specification: `amountOut =
floor(amountIn*997*Rout / (Rin*1000 + amountIn*997))` and `amountIn =
floor(Rin*amountOut*1000 / ((Rout-amountOut)*997)) + 1`, for every input on
which the integer divisions are defined (nonzero denominators). -/
theorem uniswapV2_amount_formulas_match_floor_spec
    (amount_in amount_out Rin Rout : ℤ)
    (hOut : Rin * 1000 + amount_in * 997 ≠ 0)
    (hIn : (Rout - amount_out) * 997 ≠ 0) :
    UniswapV2.get_amount_out amount_in (Rin : ℚ) (Rout : ℚ)
        = ⌊((amount_in : ℚ) * 997 * (Rout : ℚ))
            / ((Rin : ℚ) * 1000 + (amount_in : ℚ) * 997)⌋
      ∧ UniswapV2.get_amount_in amount_out (Rin : ℚ) (Rout : ℚ)
        = ⌊((Rin : ℚ) * (amount_out : ℚ) * 1000)
            / (((Rout : ℚ) - (amount_out : ℚ)) * 997)⌋ + 1 := by
  constructor
  · show (amount_in * 997 * pyInt (Rout : ℚ)).fdiv
        (pyInt (Rin : ℚ) * 1000 + amount_in * 997) = _
    rw [pyInt_intCast, pyInt_intCast,
      fdiv_eq_floor _ _ (by exact_mod_cast hOut)]
    congr 1
    push_cast
    ring
  · show (pyInt (Rin : ℚ) * amount_out * 1000).fdiv
        ((pyInt (Rout : ℚ) - amount_out) * 997) + 1 = _
    rw [pyInt_intCast, pyInt_intCast,
      fdiv_eq_floor _ _ (by exact_mod_cast hIn)]
    congr 2
    push_cast
    ring

/-- Witness for C1 at concrete input `amountIn = amountOut = 1000`,
`Rin = 5000`, `Rout = 3000`. -/
theorem uniswapV2_amount_formulas_match_floor_spec_witness :
    ((5000 : ℤ) * 1000 + 1000 * 997 ≠ 0)
      ∧ (((3000 : ℤ) - 1000) * 997 ≠ 0)
      ∧ (UniswapV2.get_amount_out 1000 (5000 : ℚ) (3000 : ℚ)
          = ⌊((1000 : ℚ) * 997 * (3000 : ℚ))
              / ((5000 : ℚ) * 1000 + (1000 : ℚ) * 997)⌋
        ∧ UniswapV2.get_amount_in 1000 (5000 : ℚ) (3000 : ℚ)
          = ⌊((5000 : ℚ) * (1000 : ℚ) * 1000)
              / (((3000 : ℚ) - (1000 : ℚ)) * 997)⌋ + 1) := by
  refine ⟨by decide, by decide, ?_⟩
  have h := uniswapV2_amount_formulas_match_floor_spec 1000 1000 5000 3000
    (by decide) (by decide)
  exact_mod_cast h

/-! ### Claim C2 -/

/-- C2, counterexample: at reserves `Rin = 1`, `Rout = 2` and input amount `3`
(all positive), composing the exact-input formula with the exact-output
inverse yields `2 < 3`, so the round trip can favor the trader. -/
theorem uniswapV2_round_trip_counterexample :
    (0 : ℤ) < 1 ∧ (0 : ℤ) < 2 ∧ (0 : ℤ) < 3
      ∧ UniswapV2.get_amount_out 3 (1 : ℚ) (2 : ℚ) = 1
      ∧ UniswapV2.get_amount_in
          (UniswapV2.get_amount_out 3 (1 : ℚ) (2 : ℚ)) (1 : ℚ) (2 : ℚ) = 2
      ∧ ¬ (3 ≤ UniswapV2.get_amount_in
          (UniswapV2.get_amount_out 3 (1 : ℚ) (2 : ℚ)) (1 : ℚ) (2 : ℚ)) := by
  decide

/-- C2, amended: the round trip that never favors the trader is the reverse
composition.  For positive integer reserves and `0 < amountOut < Rout`,
feeding the quoted input `_get_amount_in(amountOut)` back into
`_get_amount_out` returns at least `amountOut` (the quoted output is
achievable). -/
theorem uniswapV2_exact_output_round_trip
    (Rin Rout amount_out : ℤ)
    (hRin : 0 < Rin) (hout : 0 < amount_out) (hlt : amount_out < Rout) :
    amount_out ≤ UniswapV2.get_amount_out
      (UniswapV2.get_amount_in amount_out (Rin : ℚ) (Rout : ℚ))
      (Rin : ℚ) (Rout : ℚ) := by
  simp only [UniswapV2.get_amount_in, UniswapV2.get_amount_out, pyInt_intCast]
  set d := (Rin * amount_out * 1000).fdiv ((Rout - amount_out) * 997) with hd
  have hb1 : (0 : ℤ) < (Rout - amount_out) * 997 := by nlinarith
  have hnum : (0 : ℤ) ≤ Rin * amount_out * 1000 := by positivity
  have hd0 : 0 ≤ d := Int.fdiv_nonneg hnum (le_of_lt hb1)
  have hlt1 : Rin * amount_out * 1000 < (d + 1) * ((Rout - amount_out) * 997) :=
    Int.lt_fdiv_add_one_mul_self _ hb1
  have hD : (0 : ℤ) < Rin * 1000 + (d + 1) * 997 := by nlinarith
  rw [Int.fdiv_eq_ediv _ (le_of_lt hD), Int.le_ediv_iff_mul_le hD]
  nlinarith [hlt1]

/-- Witness for the amended C2 at `Rin = 100`, `Rout = 50`, `amountOut = 7`. -/
theorem uniswapV2_exact_output_round_trip_witness :
    (0 : ℤ) < 100 ∧ (0 : ℤ) < 7 ∧ (7 : ℤ) < 50
      ∧ 7 ≤ UniswapV2.get_amount_out
          (UniswapV2.get_amount_in 7 (100 : ℚ) (50 : ℚ)) (100 : ℚ) (50 : ℚ) :=
  ⟨by decide, by decide, by decide,
    uniswapV2_exact_output_round_trip 100 50 7 (by decide) (by decide) (by decide)⟩

/-! ### First-best selection: specification lemmas -/

/-- Folding `pickBest` from a seed always produces a result. -/
theorem pickBest_exists {α : Type} (key : α → ℚ) :
    ∀ (l : List α) (b : α), ∃ r, pickBest key (some b) l = some r := by
  intro l
  induction l with
  | nil => intro b; exact ⟨b, rfl⟩
  | cons q l ih =>
    intro b
    show (∃ r, pickBest key (some (if key b < key q then q else b)) l = some r)
    exact ih _

/-- The element `pickBest` selects splits the candidate list into a strictly
dominated prefix and a weakly dominated suffix: earlier candidates have
strictly smaller keys (so on ties the earlier-seen element is kept) and later
candidates never exceed it. -/
theorem pickBest_spec {α : Type} (key : α → ℚ) :
    ∀ (l : List α) (b r : α), pickBest key (some b) l = some r →
      ∃ pre post, b :: l = pre ++ r :: post
        ∧ (∀ x ∈ pre, key x < key r)
        ∧ (∀ x ∈ post, key x ≤ key r) := by
  intro l
  induction l with
  | nil =>
    intro b r h
    obtain rfl : b = r := by simpa [pickBest] using h
    exact ⟨[], [], rfl, by simp, by simp⟩
  | cons q l ih =>
    intro b r h
    rw [show pickBest key (some b) (q :: l)
        = pickBest key (some (if key b < key q then q else b)) l from rfl] at h
    by_cases hlt : key b < key q
    · rw [if_pos hlt] at h
      obtain ⟨pre, post, heq, hpre, hpost⟩ := ih q r h
      refine ⟨b :: pre, post, by simp [heq], ?_, hpost⟩
      intro x hx
      rcases List.mem_cons.mp hx with rfl | hx
      · cases pre with
        | nil =>
          simp only [List.nil_append] at heq
          injection heq with h1 h2
          exact h1 ▸ hlt
        | cons p ps =>
          simp only [List.cons_append] at heq
          injection heq with h1 h2
          subst h1
          exact lt_trans hlt (hpre q (by simp))
      · exact hpre x hx
    · rw [if_neg hlt] at h
      obtain ⟨pre, post, heq, hpre, hpost⟩ := ih b r h
      cases pre with
      | nil =>
        simp only [List.nil_append] at heq
        injection heq with h1 h2
        subst h1
        subst h2
        refine ⟨[], q :: l, rfl, by simp, ?_⟩
        intro x hx
        rcases List.mem_cons.mp hx with rfl | hx
        · exact le_of_not_lt hlt
        · exact hpost x hx
      | cons p ps =>
        simp only [List.cons_append] at heq
        injection heq with h1 hl
        subst h1
        have hbr : key b < key r := hpre b (by simp)
        refine ⟨b :: q :: ps, post, by simp [hl], ?_, hpost⟩
        intro x hx
        rcases List.mem_cons.mp hx with rfl | hx
        · exact hbr
        · rcases List.mem_cons.mp hx with rfl | hx
          · exact lt_of_le_of_lt (le_of_not_lt hlt) hbr
          · exact hpre x (by simp [hx])

/-- Starting from the empty accumulator: the selected element splits the list
itself. -/
theorem pickBest_none_spec {α : Type} (key : α → ℚ) (l : List α) (r : α)
    (h : pickBest key none l = some r) :
    ∃ pre post, l = pre ++ r :: post
      ∧ (∀ x ∈ pre, key x < key r)
      ∧ (∀ x ∈ post, key x ≤ key r) := by
  cases l with
  | nil => simp [pickBest] at h
  | cons q l =>
    exact pickBest_spec key l q r h

/-- The inline best-of fold of `DecentralizedExchange.quote_swap` is
`pickBest` keyed by `output_amount`. -/
theorem dex_fold_eq_pickBest :
    ∀ (l : List SwapRoute) (acc : Option SwapRoute),
      l.foldl
        (fun best quote =>
          match best with
          | none => some quote
          | some b =>
              if quote.output_amount > b.output_amount then some quote else some b)
        acc
      = pickBest (fun r => r.output_amount) acc l := by
  intro l
  induction l with
  | nil => intro acc; cases acc <;> rfl
  | cons q l ih =>
    intro acc
    cases acc with
    | none => exact ih (some q)
    | some b =>
      show List.foldl _
          (if q.output_amount > b.output_amount then some q else some b) l
        = pickBest (fun r => r.output_amount)
            (some (if b.output_amount < q.output_amount then q else b)) l
      rw [show (if q.output_amount > b.output_amount then some q else some b)
          = some (if b.output_amount < q.output_amount then q else b) by
        by_cases hlt : b.output_amount < q.output_amount <;>
          simp [gt_iff_lt, hlt]]
      exact ih _

/-! ### Claim C3 -/

/-- C3: `DecentralizedExchange.quote_swap` with no protocol named queries the
registered strategies in registration order and, in every mode, returns the
route whose `output_amount` is strictly greatest, keeping the earlier-seen
route on ties (candidates before the winner are strictly smaller, candidates
after never exceed it); on an empty registry it fails with the no-route
error. -/
theorem dex_quote_swap_best_of_n
    (registry : List (String × Strategy))
    (input_asset output_asset : ℕ) (amount : ℚ) (mode : SwapMode) :
    (registry = [] →
      DecentralizedExchange.quote_swap registry input_asset output_asset amount
        mode none = .error "No valid route found")
    ∧ (∀ s rest, registry = s :: rest →
        ∃ (r : SwapRoute) (pre post : List SwapRoute),
          DecentralizedExchange.quote_swap registry input_asset output_asset amount
              mode none = .ok r
          ∧ registry.map (fun p => p.2.quote input_asset output_asset amount mode)
              = pre ++ r :: post
          ∧ (∀ q ∈ pre, q.output_amount < r.output_amount)
          ∧ (∀ q ∈ post, q.output_amount ≤ r.output_amount)) := by
  constructor
  · intro h
    subst h
    rfl
  · intro s rest h
    subst h
    simp only [DecentralizedExchange.quote_swap, strTruthy, Bool.false_eq_true,
      if_false, List.map_cons, List.foldl_cons]
    rw [dex_fold_eq_pickBest]
    obtain ⟨r, hr⟩ := pickBest_exists (fun r => r.output_amount)
      (rest.map fun p => p.2.quote input_asset output_asset amount mode)
      (s.2.quote input_asset output_asset amount mode)
    obtain ⟨pre, post, heq, hpre, hpost⟩ :=
      pickBest_spec (fun r : SwapRoute => r.output_amount) _ _ _ hr
    exact ⟨r, pre, post, by rw [hr], by simpa using heq, hpre, hpost⟩

/-- Witness for C3: two strategies quoting 95 and 100; with no protocol named
the empty registry fails with the no-route error and the two-strategy
registry returns a best route. -/
theorem dex_quote_swap_best_of_n_witness :
    (DecentralizedExchange.quote_swap ([] : List (String × Strategy)) 0 1 5
        SwapMode.EXACT_INPUT none = .error "No valid route found")
      ∧ (∃ (r : SwapRoute) (pre post : List SwapRoute),
          DecentralizedExchange.quote_swap
              [("a", constStrategy 95), ("b", constStrategy 100)] 0 1 5
              SwapMode.EXACT_INPUT none = .ok r
          ∧ ([("a", constStrategy 95), ("b", constStrategy 100)].map
              (fun p => p.2.quote 0 1 5 SwapMode.EXACT_INPUT)) = pre ++ r :: post
          ∧ (∀ q ∈ pre, q.output_amount < r.output_amount)
          ∧ (∀ q ∈ post, q.output_amount ≤ r.output_amount)) :=
  ⟨(dex_quote_swap_best_of_n [] 0 1 5 SwapMode.EXACT_INPUT).1 rfl,
    (dex_quote_swap_best_of_n [("a", constStrategy 95), ("b", constStrategy 100)]
      0 1 5 SwapMode.EXACT_INPUT).2 ("a", constStrategy 95)
      [("b", constStrategy 100)] rfl⟩

/-! ### Claim C4 -/

/-- C4: `UniswapDEX.find_best_route` is a direct alias for `quote_swap`: for
every registry, asset pair, amount, mode, hop bound and optional protocol
name it returns exactly what `quote_swap` returns on the same arguments. -/
theorem uniswapDEX_find_best_route_eq_quote_swap
    (registry : List (String × Strategy)) (input_asset output_asset : ℕ)
    (amount : ℚ) (mode : SwapMode) (max_hops : ℕ) (protocol : Option String) :
    UniswapDEX.find_best_route registry input_asset output_asset amount mode
        max_hops protocol
      = DecentralizedExchange.quote_swap registry input_asset output_asset amount
          mode protocol :=
  rfl

/-! ### Claim C5 -/

/-- `strTruthy` of a nonempty name is `true`. -/
theorem strTruthy_some_of_ne {name : String} (hn : name ≠ "") :
    strTruthy (some name) = true := by
  simp [strTruthy, hn]

/-- With no protocol named, a nonempty DEX registry always yields a best
route (the fold over a nonempty candidate list cannot return `None`). -/
theorem dex_quote_none_cons_ok (p : String × Strategy)
    (ps : List (String × Strategy)) (input_asset output_asset : ℕ)
    (amount : ℚ) (mode : SwapMode) :
    ∃ r, DecentralizedExchange.quote_swap (p :: ps) input_asset output_asset
        amount mode none = .ok r := by
  obtain ⟨r, hr⟩ := pickBest_exists (fun r : SwapRoute => r.output_amount)
    (ps.map fun x => x.2.quote input_asset output_asset amount mode)
    (p.2.quote input_asset output_asset amount mode)
  refine ⟨r, ?_⟩
  simp only [DecentralizedExchange.quote_swap, strTruthy, Bool.false_eq_true,
    if_false, List.map_cons, List.foldl_cons]
  rw [dex_fold_eq_pickBest, hr]

/-- C5, counterexample: the DEX aggregator does not follow the
name-or-first resolution rule.  With an empty registry and no protocol named
`quote_swap` fails with `No valid route found`, not
`No protocols configured`; and with two registered strategies it returns the
best quote (the second strategy's output 100), not the first-registered
strategy's quote. -/
theorem dex_resolution_rule_counterexample :
    DecentralizedExchange.quote_swap ([] : List (String × Strategy)) 0 1 7
        SwapMode.EXACT_INPUT none = .error "No valid route found"
      ∧ "No valid route found" ≠ "No protocols configured"
      ∧ DecentralizedExchange.quote_swap
          [("a", constStrategy 95), ("b", constStrategy 100)] 0 1 7
          SwapMode.EXACT_INPUT none
        = .ok ((constStrategy 100).quote 0 1 7 SwapMode.EXACT_INPUT)
      ∧ (constStrategy 100).quote 0 1 7 SwapMode.EXACT_INPUT
        ≠ (constStrategy 95).quote 0 1 7 SwapMode.EXACT_INPUT := by
  refine ⟨rfl, by decide, rfl, by decide⟩

/-- C5, amended: the money-market and betting-market aggregators resolve by
name-or-first: a named protocol absent from the registry fails with
`Unsupported protocol: X`; with no name, an empty registry fails with
`No protocols configured` and a nonempty registry yields the first-registered
strategy.  The DEX applies the same `Unsupported protocol: X` check when a
name is given, but with no name it aggregates best-of-N and fails with
`No valid route found` on an empty registry. -/
theorem protocol_resolution_rule_amended {A B : Type} (name : String)
    (rmm : List (String × A)) (rbm : List (String × B))
    (rdx : List (String × Strategy)) (input_asset output_asset : ℕ)
    (amount : ℚ) (mode : SwapMode) (k1 k2 : String) (a : A) (b : B)
    (ra : List (String × A)) (rb : List (String × B))
    (hn : name ≠ "")
    (h1 : rmm.lookup name = none)
    (h2 : rbm.lookup name = none)
    (h3 : rdx.lookup name = none) :
    MoneyMarket.get_protocol_implementation rmm (some name)
        = .error ("Unsupported protocol: " ++ name)
      ∧ BettingMarket.get_protocol_implementation rbm (some name)
        = .error ("Unsupported protocol: " ++ name)
      ∧ DecentralizedExchange.quote_swap rdx input_asset output_asset amount mode
          (some name)
        = .error ("Unsupported protocol: " ++ name)
      ∧ MoneyMarket.get_protocol_implementation ([] : List (String × A)) none
        = .error "No protocols configured"
      ∧ BettingMarket.get_protocol_implementation ([] : List (String × B)) none
        = .error "No protocols configured"
      ∧ MoneyMarket.get_protocol_implementation ((k1, a) :: ra) none = .ok a
      ∧ BettingMarket.get_protocol_implementation ((k2, b) :: rb) none = .ok b
      ∧ DecentralizedExchange.quote_swap ([] : List (String × Strategy))
          input_asset output_asset amount mode none
        = .error "No valid route found" := by
  refine ⟨?_, ?_, ?_, rfl, rfl, rfl, rfl, rfl⟩
  · simp [MoneyMarket.get_protocol_implementation, strTruthy_some_of_ne hn, h1]
  · simp [BettingMarket.get_protocol_implementation, strTruthy_some_of_ne hn, h2]
  · simp [DecentralizedExchange.quote_swap, strTruthy_some_of_ne hn, h3]

/-- Witness for the amended C5 at concrete registries and the absent name
`"comp"`. -/
theorem protocol_resolution_rule_amended_witness :
    ("comp" : String) ≠ ""
      ∧ ([("aave", (1 : ℕ))].lookup "comp" = none)
      ∧ ([("poly", true)].lookup "comp" = none)
      ∧ ([("uniswap_v2", constStrategy 95)].lookup "comp"
          = (none : Option Strategy))
      ∧ (MoneyMarket.get_protocol_implementation [("aave", (1 : ℕ))] (some "comp")
            = .error ("Unsupported protocol: " ++ "comp")
          ∧ BettingMarket.get_protocol_implementation [("poly", true)] (some "comp")
            = .error ("Unsupported protocol: " ++ "comp")
          ∧ DecentralizedExchange.quote_swap [("uniswap_v2", constStrategy 95)]
              0 1 7 SwapMode.EXACT_INPUT (some "comp")
            = .error ("Unsupported protocol: " ++ "comp")
          ∧ MoneyMarket.get_protocol_implementation ([] : List (String × ℕ)) none
            = .error "No protocols configured"
          ∧ BettingMarket.get_protocol_implementation ([] : List (String × Bool)) none
            = .error "No protocols configured"
          ∧ MoneyMarket.get_protocol_implementation [("aave", (1 : ℕ))] none
            = .ok 1
          ∧ BettingMarket.get_protocol_implementation [("poly", true)] none
            = .ok true
          ∧ DecentralizedExchange.quote_swap ([] : List (String × Strategy))
              0 1 7 SwapMode.EXACT_INPUT none
            = .error "No valid route found") :=
  ⟨by decide, by decide, by decide, rfl,
    protocol_resolution_rule_amended "comp" [("aave", 1)] [("poly", true)]
      [("uniswap_v2", constStrategy 95)] 0 1 7 SwapMode.EXACT_INPUT
      "aave" "poly" 1 true [] []
      (by decide) (by decide) (by decide) rfl⟩

/-! ### Claim C10 -/

/-- C10: in all three aggregators the empty string as protocol name behaves
exactly like passing no protocol (Python tests the name for truthiness), and
in particular never produces the `Unsupported protocol` error. -/
theorem empty_protocol_name_treated_as_none {α β : Type}
    (registry_mm : List (String × α)) (registry_bm : List (String × β))
    (registry_dex : List (String × Strategy)) (input_asset output_asset : ℕ)
    (amount : ℚ) (mode : SwapMode) :
    MoneyMarket.get_protocol_implementation registry_mm (some "")
        = MoneyMarket.get_protocol_implementation registry_mm none
      ∧ BettingMarket.get_protocol_implementation registry_bm (some "")
        = BettingMarket.get_protocol_implementation registry_bm none
      ∧ DecentralizedExchange.quote_swap registry_dex input_asset output_asset
          amount mode (some "")
        = DecentralizedExchange.quote_swap registry_dex input_asset output_asset
            amount mode none
      ∧ MoneyMarket.get_protocol_implementation registry_mm (some "")
        ≠ .error ("Unsupported protocol: " ++ "")
      ∧ BettingMarket.get_protocol_implementation registry_bm (some "")
        ≠ .error ("Unsupported protocol: " ++ "")
      ∧ DecentralizedExchange.quote_swap registry_dex input_asset output_asset
          amount mode (some "")
        ≠ .error ("Unsupported protocol: " ++ "") := by
  refine ⟨rfl, rfl, rfl, ?_, ?_, ?_⟩
  · cases registry_mm with
    | nil =>
      intro h
      exact absurd (Except.error.inj h) (by decide)
    | cons p ps =>
      intro h
      exact Except.noConfusion h
  · cases registry_bm with
    | nil =>
      intro h
      exact absurd (Except.error.inj h) (by decide)
    | cons p ps =>
      intro h
      exact Except.noConfusion h
  · cases registry_dex with
    | nil =>
      intro h
      exact absurd (Except.error.inj h) (by decide)
    | cons p ps =>
      intro h
      obtain ⟨r, hr⟩ := dex_quote_none_cons_ok p ps input_asset output_asset
        amount mode
      have hr' : DecentralizedExchange.quote_swap (p :: ps) input_asset
          output_asset amount mode (some "") = .ok r := hr
      rw [hr'] at h
      exact Except.noConfusion h

/-! ### Claim C7 -/

/-- C7: whenever protocol resolution succeeds with strategy `s`, the
betting-market aggregator builds the buy transaction with
`max_price = price * (1 + default_slippage_tolerance)` when the caller omits
`max_price`, builds the sell transaction with
`min_price = price * (1 - default_slippage_tolerance)` when the caller omits
`min_price`, and forwards a caller-supplied bound unchanged. -/
theorem betting_market_slippage_defaults {Tx : Type}
    (default_slippage_tolerance : ℚ)
    (strategies : List (String × BettingStrategy Tx))
    (protocol : Option String) (market_id outcome_token_id user_address : String)
    (amount shares bound : ℚ) (s : BettingStrategy Tx)
    (hres : BettingMarket.get_protocol_implementation strategies protocol = .ok s) :
    BettingMarket.buy_outcome_tokens default_slippage_tolerance strategies
        market_id outcome_token_id amount user_address none protocol
      = .ok (s.build_buy_transaction market_id outcome_token_id amount
          (s.outcome_token_price market_id outcome_token_id
            * (1 + default_slippage_tolerance)) user_address)
    ∧ BettingMarket.buy_outcome_tokens default_slippage_tolerance strategies
        market_id outcome_token_id amount user_address (some bound) protocol
      = .ok (s.build_buy_transaction market_id outcome_token_id amount bound
          user_address)
    ∧ BettingMarket.sell_outcome_tokens default_slippage_tolerance strategies
        market_id outcome_token_id shares user_address none protocol
      = .ok (s.build_sell_transaction market_id outcome_token_id shares
          (s.outcome_token_price market_id outcome_token_id
            * (1 - default_slippage_tolerance)) user_address)
    ∧ BettingMarket.sell_outcome_tokens default_slippage_tolerance strategies
        market_id outcome_token_id shares user_address (some bound) protocol
      = .ok (s.build_sell_transaction market_id outcome_token_id shares bound
          user_address) := by
  refine ⟨?_, ?_, ?_, ?_⟩ <;>
    simp [BettingMarket.buy_outcome_tokens, BettingMarket.sell_outcome_tokens,
      BettingMarket.get_outcome_token_price, hres]

/-- Witness for C7: one registered strategy with price 0.6 and a 1%
tolerance; the defaulted bounds are 0.606 and 0.594, and explicit bounds pass
through. -/
theorem betting_market_slippage_defaults_witness :
    (BettingMarket.get_protocol_implementation
        [("poly", recordingBettingStrategy (3/5))] none
      = .ok (recordingBettingStrategy (3/5)))
    ∧ (BettingMarket.buy_outcome_tokens (1/100)
          [("poly", recordingBettingStrategy (3/5))] "m" "t" 20 "u" none none
        = .ok ((recordingBettingStrategy (3/5)).build_buy_transaction "m" "t" 20
            ((recordingBettingStrategy (3/5)).outcome_token_price "m" "t"
              * (1 + 1/100)) "u")
      ∧ BettingMarket.buy_outcome_tokens (1/100)
          [("poly", recordingBettingStrategy (3/5))] "m" "t" 20 "u" (some (7/10)) none
        = .ok ((recordingBettingStrategy (3/5)).build_buy_transaction "m" "t" 20
            (7/10) "u")
      ∧ BettingMarket.sell_outcome_tokens (1/100)
          [("poly", recordingBettingStrategy (3/5))] "m" "t" 9 "u" none none
        = .ok ((recordingBettingStrategy (3/5)).build_sell_transaction "m" "t" 9
            ((recordingBettingStrategy (3/5)).outcome_token_price "m" "t"
              * (1 - 1/100)) "u")
      ∧ BettingMarket.sell_outcome_tokens (1/100)
          [("poly", recordingBettingStrategy (3/5))] "m" "t" 9 "u" (some (7/10)) none
        = .ok ((recordingBettingStrategy (3/5)).build_sell_transaction "m" "t" 9
            (7/10) "u")) :=
  ⟨rfl,
    betting_market_slippage_defaults (1/100)
      [("poly", recordingBettingStrategy (3/5))] none "m" "t" "u" 20 9 (7/10)
      (recordingBettingStrategy (3/5)) rfl⟩

/-! ### Claim C6 -/

/-- In exact-input mode the V3 fee-tier fold is `pickBest` keyed by the
quote amount over the (quote, tier) pairs of the tiers that have pools. -/
theorem v3fold_exact_input (pq : ℕ → Option ℚ) :
    ∀ (tiers : List ℕ) (acc : Option (ℚ × ℕ)),
      tiers.foldl (UniswapV3.tier_step SwapMode.EXACT_INPUT pq) acc
        = pickBest (fun p : ℚ × ℕ => p.1) acc
            (tiers.filterMap fun t => (pq t).map fun q => (q, t)) := by
  intro tiers
  induction tiers with
  | nil => intro acc; cases acc <;> rfl
  | cons t ts ih =>
    intro acc
    cases hpq : pq t with
    | none =>
      rw [List.foldl_cons,
        show UniswapV3.tier_step SwapMode.EXACT_INPUT pq acc t = acc by
          simp [UniswapV3.tier_step, hpq],
        List.filterMap_cons_none (by simp [hpq])]
      exact ih acc
    | some q =>
      rw [List.foldl_cons,
        show (List.filterMap (fun t => (pq t).map fun q => (q, t)) (t :: ts))
            = (q, t) :: List.filterMap (fun t => (pq t).map fun q => (q, t)) ts by
          simp [List.filterMap_cons, hpq]]
      cases acc with
      | none =>
        rw [show UniswapV3.tier_step SwapMode.EXACT_INPUT pq none t
            = some (q, t) by simp [UniswapV3.tier_step, hpq]]
        exact ih (some (q, t))
      | some bp =>
        obtain ⟨bq, bt⟩ := bp
        rw [show UniswapV3.tier_step SwapMode.EXACT_INPUT pq (some (bq, bt)) t
            = some (if bq < q then (q, t) else (bq, bt)) by
          by_cases hlt : bq < q <;>
            simp [UniswapV3.tier_step, hpq, hlt, gt_iff_lt]]
        exact ih _

/-- In exact-output mode the V3 fee-tier fold is `pickBest` keyed by the
negated quote amount (so a strictly smaller input wins). -/
theorem v3fold_exact_output (pq : ℕ → Option ℚ) :
    ∀ (tiers : List ℕ) (acc : Option (ℚ × ℕ)),
      tiers.foldl (UniswapV3.tier_step SwapMode.EXACT_OUTPUT pq) acc
        = pickBest (fun p : ℚ × ℕ => -p.1) acc
            (tiers.filterMap fun t => (pq t).map fun q => (q, t)) := by
  intro tiers
  induction tiers with
  | nil => intro acc; cases acc <;> rfl
  | cons t ts ih =>
    intro acc
    cases hpq : pq t with
    | none =>
      rw [List.foldl_cons,
        show UniswapV3.tier_step SwapMode.EXACT_OUTPUT pq acc t = acc by
          simp [UniswapV3.tier_step, hpq],
        List.filterMap_cons_none (by simp [hpq])]
      exact ih acc
    | some q =>
      rw [List.foldl_cons,
        show (List.filterMap (fun t => (pq t).map fun q => (q, t)) (t :: ts))
            = (q, t) :: List.filterMap (fun t => (pq t).map fun q => (q, t)) ts by
          simp [List.filterMap_cons, hpq]]
      cases acc with
      | none =>
        rw [show UniswapV3.tier_step SwapMode.EXACT_OUTPUT pq none t
            = some (q, t) by simp [UniswapV3.tier_step, hpq]]
        exact ih (some (q, t))
      | some bp =>
        obtain ⟨bq, bt⟩ := bp
        rw [show UniswapV3.tier_step SwapMode.EXACT_OUTPUT pq (some (bq, bt)) t
            = some (if -bq < -q then (q, t) else (bq, bt)) by
          by_cases hlt : q < bq <;>
            simp [UniswapV3.tier_step, hpq, hlt, neg_lt_neg_iff]]
        exact ih _

/-- C6: whenever a V3 quote succeeds in exact-input or exact-output mode,
the winner comes from the (quote, tier) pairs produced by walking the fixed
fee-tier list `[100, 500, 3000, 10000]` in order and skipping tiers without a
pool; it is strictly better than every earlier candidate (so first-seen wins
ties) and at least as good as every later one — highest output amount for
exact-input, lowest input amount for exact-output; and the returned route
embeds the winning tier in its protocol identifier and has
`taxes = tier / 1_000_000`. -/
theorem uniswapV3_fee_tier_selection (poolQuote : ℕ → Option ℚ)
    (input_asset output_asset : ℕ) (amount : ℚ) (mode : SwapMode) (r : SwapRoute)
    (hmode : mode = SwapMode.EXACT_INPUT ∨ mode = SwapMode.EXACT_OUTPUT)
    (hok : UniswapV3.quote_swap poolQuote input_asset output_asset amount mode
      = .ok r) :
    ∃ (q : ℚ) (t : ℕ) (pre post : List (ℚ × ℕ)),
      UniswapV3.hits poolQuote = pre ++ (q, t) :: post
      ∧ r.protocol = "uniswap_v3_" ++ toString t
      ∧ r.taxes = (t : ℚ) / 1000000
      ∧ (mode = SwapMode.EXACT_INPUT →
          r.input_amount = amount ∧ r.output_amount = q
          ∧ (∀ p ∈ pre, p.1 < q) ∧ (∀ p ∈ post, p.1 ≤ q))
      ∧ (mode = SwapMode.EXACT_OUTPUT →
          r.input_amount = q ∧ r.output_amount = amount
          ∧ (∀ p ∈ pre, q < p.1) ∧ (∀ p ∈ post, q ≤ p.1)) := by
  rcases hmode with rfl | rfl
  · rcases hbp : UniswapV3.bestPool SwapMode.EXACT_INPUT poolQuote with _ | ⟨bq, bt⟩
    · rw [UniswapV3.quote_swap, hbp] at hok
      exact Except.noConfusion hok
    · rw [UniswapV3.quote_swap, hbp] at hok
      simp only [Except.ok.injEq] at hok
      subst hok
      have hbp' : pickBest (fun p : ℚ × ℕ => p.1) none (UniswapV3.hits poolQuote)
          = some (bq, bt) := by
        show pickBest (fun p : ℚ × ℕ => p.1) none
          (UniswapV3.fee_tiers.filterMap fun t => (poolQuote t).map fun q => (q, t))
          = some (bq, bt)
        rw [← v3fold_exact_input poolQuote UniswapV3.fee_tiers none]
        exact hbp
      obtain ⟨pre, post, heq, hpre, hpost⟩ :=
        pickBest_none_spec (fun p : ℚ × ℕ => p.1) _ _ hbp'
      refine ⟨bq, bt, pre, post, heq, rfl, rfl, ?_, ?_⟩
      · intro _
        refine ⟨by simp, by simp, hpre, hpost⟩
      · intro h
        exact SwapMode.noConfusion h
  · rcases hbp : UniswapV3.bestPool SwapMode.EXACT_OUTPUT poolQuote with _ | ⟨bq, bt⟩
    · rw [UniswapV3.quote_swap, hbp] at hok
      exact Except.noConfusion hok
    · rw [UniswapV3.quote_swap, hbp] at hok
      simp only [Except.ok.injEq] at hok
      subst hok
      have hbp' : pickBest (fun p : ℚ × ℕ => -p.1) none (UniswapV3.hits poolQuote)
          = some (bq, bt) := by
        show pickBest (fun p : ℚ × ℕ => -p.1) none
          (UniswapV3.fee_tiers.filterMap fun t => (poolQuote t).map fun q => (q, t))
          = some (bq, bt)
        rw [← v3fold_exact_output poolQuote UniswapV3.fee_tiers none]
        exact hbp
      obtain ⟨pre, post, heq, hpre, hpost⟩ :=
        pickBest_none_spec (fun p : ℚ × ℕ => -p.1) _ _ hbp'
      refine ⟨bq, bt, pre, post, heq, rfl, rfl, ?_, ?_⟩
      · intro h
        exact SwapMode.noConfusion h
      · intro _
        refine ⟨by simp, by simp, ?_, ?_⟩
        · intro p hp
          have := hpre p hp
          simpa using this
        · intro p hp
          have := hpost p hp
          simpa using this

/-- Witness for C6: pools at tiers 500 (quote 51) and 3000 (quote 50) in
exact-input mode; the quote succeeds with the tier-500 route. -/
theorem uniswapV3_fee_tier_selection_witness :
    (SwapMode.EXACT_INPUT = SwapMode.EXACT_INPUT
        ∨ SwapMode.EXACT_INPUT = SwapMode.EXACT_OUTPUT)
      ∧ UniswapV3.quote_swap v3WitnessPools 0 1 5 SwapMode.EXACT_INPUT
          = .ok v3WitnessRoute
      ∧ (∃ (q : ℚ) (t : ℕ) (pre post : List (ℚ × ℕ)),
          UniswapV3.hits v3WitnessPools = pre ++ (q, t) :: post
          ∧ v3WitnessRoute.protocol = "uniswap_v3_" ++ toString t
          ∧ v3WitnessRoute.taxes = (t : ℚ) / 1000000
          ∧ (SwapMode.EXACT_INPUT = SwapMode.EXACT_INPUT →
              v3WitnessRoute.input_amount = 5 ∧ v3WitnessRoute.output_amount = q
              ∧ (∀ p ∈ pre, p.1 < q) ∧ (∀ p ∈ post, p.1 ≤ q))
          ∧ (SwapMode.EXACT_INPUT = SwapMode.EXACT_OUTPUT →
              v3WitnessRoute.input_amount = q ∧ v3WitnessRoute.output_amount = 5
              ∧ (∀ p ∈ pre, q < p.1) ∧ (∀ p ∈ post, q ≤ p.1))) :=
  ⟨Or.inl rfl, rfl,
    uniswapV3_fee_tier_selection v3WitnessPools 0 1 5 SwapMode.EXACT_INPUT
      v3WitnessRoute (Or.inl rfl) rfl⟩

/-! ### Claim C9 -/

/-- C9: every exact-output V2 quote returns a route whose `input_amount` and
`output_amount` (and the single hop's two amounts) all equal the computed
required input amount; the caller's requested output amount is overwritten
and appears nowhere in the route. -/
theorem uniswapV2_exact_output_route_amounts
    (input_asset output_asset input_decimals output_decimals : ℕ)
    (reserve_a reserve_b amount : ℚ) :
    (UniswapV2.quote_swap input_asset output_asset input_decimals output_decimals
        reserve_a reserve_b amount SwapMode.EXACT_OUTPUT).input_amount
      = ((UniswapV2.get_amount_in (pyInt (amount * 10 ^ output_decimals))
          reserve_a reserve_b : ℤ) : ℚ) / 10 ^ input_decimals
    ∧ (UniswapV2.quote_swap input_asset output_asset input_decimals output_decimals
        reserve_a reserve_b amount SwapMode.EXACT_OUTPUT).output_amount
      = ((UniswapV2.get_amount_in (pyInt (amount * 10 ^ output_decimals))
          reserve_a reserve_b : ℤ) : ℚ) / 10 ^ input_decimals
    ∧ (UniswapV2.quote_swap input_asset output_asset input_decimals output_decimals
        reserve_a reserve_b amount SwapMode.EXACT_OUTPUT).input_amount
      = (UniswapV2.quote_swap input_asset output_asset input_decimals output_decimals
          reserve_a reserve_b amount SwapMode.EXACT_OUTPUT).output_amount
    ∧ (UniswapV2.quote_swap input_asset output_asset input_decimals output_decimals
        reserve_a reserve_b amount SwapMode.EXACT_OUTPUT).sequence
      = [⟨input_asset,
          ((UniswapV2.get_amount_in (pyInt (amount * 10 ^ output_decimals))
            reserve_a reserve_b : ℤ) : ℚ) / 10 ^ input_decimals,
          output_asset,
          ((UniswapV2.get_amount_in (pyInt (amount * 10 ^ output_decimals))
            reserve_a reserve_b : ℤ) : ℚ) / 10 ^ input_decimals, false⟩] :=
  ⟨rfl, rfl, rfl, rfl⟩

/-! ### Claim C8 -/

/-- C8 (code bug): `validate_swap_hop` rejects equal assets, zero amounts and
fractional raw amounts, but accepts a hop with the negative input amount `-1`
even though its own error message demands amounts strictly greater than 0 —
so construction does not fail on all non-positive amounts. -/
theorem swap_hop_validator_accepts_negative_amounts :
    validate_swap_hop ⟨0, -1, 1, 1, false⟩ = .ok ⟨0, -1, 1, 1, false⟩
      ∧ (⟨0, -1, 1, 1, false⟩ : SwapHop).input_amount < 0
      ∧ validate_swap_hop ⟨2, 1, 2, 1, false⟩
        = .error "Input and output assets must be different."
      ∧ validate_swap_hop ⟨0, 0, 1, 1, false⟩
        = .error "Amounts must be greater than 0."
      ∧ threeHalves.den ≠ 1
      ∧ validate_swap_hop ⟨0, threeHalves, 1, 1, true⟩
        = .error "Raw amounts must be integers." :=
  ⟨rfl, by decide, rfl, rfl, by decide, rfl⟩
